import Mathlib

/-!
Shallow embedding of the multi-source price aggregation and resilience layer
of the Galaswap trading bot (src/price-service.js, src/price-config.js,
src/error-recovery.js, src/real-trading-server-optimized.js).

Conventions:
* JS numbers carrying prices are modelled as `ℚ`; `Date.now()` timestamps as `ℤ`
  (milliseconds).
* JS objects used as string-keyed maps are modelled as association lists
  `List (String × ℚ)` (first binding wins, as insertion order is irrelevant for
  the properties proved here).
* Fallible upstream calls (`gswap.quoting.quoteExactInput`) are modelled by an
  oracle `String → String → Option ℚ` giving the quoted output amount for a
  1-unit exact-input quote from the first token to the second, `none` meaning
  the call threw.
-/

/-! ## Price comparison configuration (src/price-config.js, `comparison`) -/

structure ComparisonConfig where
  maxVariancePercent : ℚ
  preferExternalSources : Bool
  fallbackToAverage : Bool
deriving DecidableEq, Repr

/-- Defaults from src/price-config.js lines 37-41. -/
def defaultComparisonConfig : ComparisonConfig :=
  { maxVariancePercent := 10, preferExternalSources := true, fallbackToAverage := true }

/-! ## Association-list lookup (JS `obj[key]`, `undefined` ↦ `none`) -/

def lookupKey {α : Type} : List (String × α) → String → Option α
  | [], _ => none
  | (s, p) :: rest, key => if s = key then some p else lookupKey rest key

/-! ## Price reconciler (src/price-service.js, `comparePrices` / `selectBestPrice`) -/

/-- One element of the `priceData` array passed to `comparePrices`:
the result of one source adapter (`{ source, prices }`). -/
structure SourceResult where
  source : String
  prices : List (String × ℚ)
deriving DecidableEq, Repr

/-- The per-token collection loop of `comparePrices` (src/price-service.js
lines 292-297): a source contributes its price for `token` exactly when
`source.prices[token] && source.prices[token] > 0`, i.e. the entry is present,
truthy (≠ 0) and strictly positive. -/
def contributionOf (token : String) (sr : SourceResult) : Option (String × ℚ) :=
  match lookupKey sr.prices token with
  | some p => if p ≠ 0 ∧ 0 < p then some (sr.source, p) else none
  | none => none

def contributingPrices (priceData : List SourceResult) (token : String) :
    List (String × ℚ) :=
  priceData.filterMap (contributionOf token)

/-- Source priority list of `selectBestPrice` (src/price-service.js
lines 329-331). -/
def sourcePriority (cfg : ComparisonConfig) : List String :=
  if cfg.preferExternalSources then ["coinmarketcap", "coingecko", "galachain"]
  else ["galachain", "coinmarketcap", "coingecko"]

/-- The priority walk of `selectBestPrice` (src/price-service.js lines 333-337):
return the first source in the list with a truthy price entry that is enabled. -/
def findPrioritySource (enabled : String → Bool) (prices : List (String × ℚ)) :
    List String → Option (String × ℚ)
  | [] => none
  | s :: rest =>
    match lookupKey prices s with
    | some p =>
      if p ≠ 0 ∧ enabled s = true then some (s, p)
      else findPrioritySource enabled prices rest
    | none => findPrioritySource enabled prices rest

/-- `PriceService.selectBestPrice` (src/price-service.js lines 322-341). -/
def selectBestPrice (cfg : ComparisonConfig) (enabled : String → Bool)
    (prices : List (String × ℚ)) (average variance : ℚ) : String × ℚ :=
  if variance < cfg.maxVariancePercent ∧ cfg.fallbackToAverage = true then
    ("average", average)
  else
    match findPrioritySource enabled prices (sourcePriority cfg) with
    | some sp => sp
    | none => ("average", average)

def listMax : List ℚ → ℚ
  | [] => 0
  | [x] => x
  | x :: y :: rest => max x (listMax (y :: rest))

def listMin : List ℚ → ℚ
  | [] => 0
  | [x] => x
  | x :: y :: rest => min x (listMin (y :: rest))

/-- One entry of the `comparison` object built by `comparePrices`
(src/price-service.js lines 306-314); the `symbol` field is omitted (pure
display data). -/
structure ComparisonEntry where
  prices : List (String × ℚ)
  average : ℚ
  maxP : ℚ
  minP : ℚ
  variance : ℚ
  recommended : String × ℚ
deriving DecidableEq, Repr

/-- The per-token body of `PriceService.comparePrices` (src/price-service.js
lines 288-316): `none` when no source contributes a positive price for the
token (the token is then absent from the `comparison` object). -/
def comparePricesToken (cfg : ComparisonConfig) (enabled : String → Bool)
    (priceData : List SourceResult) (token : String) : Option ComparisonEntry :=
  let prices := contributingPrices priceData token
  if prices = [] then none
  else
    let values := prices.map Prod.snd
    let avgPrice := values.sum / (values.length : ℚ)
    let maxPrice := listMax values
    let minPrice := listMin values
    let variance := ((maxPrice - minPrice) / avgPrice) * 100
    some { prices := prices
           average := avgPrice
           maxP := maxPrice
           minP := minPrice
           variance := variance
           recommended := selectBestPrice cfg enabled prices avgPrice variance }

/-- `PriceService.comparePrices` over a token list (src/price-service.js
lines 284-319): the comparison object, as an association list. -/
def comparePrices (cfg : ComparisonConfig) (enabled : String → Bool)
    (tokens : List String) (priceData : List SourceResult) :
    List (String × ComparisonEntry) :=
  tokens.filterMap (fun t =>
    (comparePricesToken cfg enabled priceData t).map (fun e => (t, e)))

/-! ## GalaChain source adapter (src/price-service.js, `fetchGalaChainPrices`,
`getGalaUsdPrice`) and its fallback variant
(src/real-trading-server-optimized.js, `getBasicGalaChainPrices`) -/

def galaKey : String := "GALA|Unit|none|none"
def gusdcKey : String := "GUSDC|Unit|none|none"
def gusdtKey : String := "GUSDT|Unit|none|none"

/-- The keys of `this.tokenMappings` (src/price-service.js lines 40-89), which
coincide with the `tokens` list of `getBasicGalaChainPrices`
(src/real-trading-server-optimized.js lines 153-162), in declaration order. -/
def tokenMappingKeys : List String :=
  [galaKey, gusdcKey, gusdtKey, "ETIME|Unit|none|none", "GTON|Unit|none|none",
   "GOSMI|Unit|none|none", "FILM|Unit|none|none", "GMUSIC|Unit|none|none"]

/-- `PriceService.getGalaUsdPrice` (src/price-service.js lines 268-281):
quotes 1 GALA into GUSDC; on failure returns the hard-coded fallback `0.015`. -/
def getGalaUsdPrice (quoteOracle : String → String → Option ℚ) : ℚ :=
  match quoteOracle galaKey gusdcKey with
  | some q => q
  | none => 15/1000

/-- The per-token promise body of `PriceService.fetchGalaChainPrices`
(src/price-service.js lines 224-251): stablecoins are pinned to 1.00; GALA is
quoted into GUSDC; every other token is quoted into GALA and converted via
`getGalaUsdPrice`; any quoting failure yields the hard-coded fallback `0.01`. -/
def galaChainTokenPrice (quoteOracle : String → String → Option ℚ)
    (token : String) : ℚ :=
  if token = gusdcKey ∨ token = gusdtKey then 1
  else if token = galaKey then
    match quoteOracle galaKey gusdcKey with
    | some q => q
    | none => 1/100
  else
    match quoteOracle token galaKey with
    | some q => q * getGalaUsdPrice quoteOracle
    | none => 1/100

/-- `PriceService.fetchGalaChainPrices` (src/price-service.js lines 208-266):
the `prices` object it builds, one entry per token of `tokenMappings`. -/
def fetchGalaChainPrices (quoteOracle : String → String → Option ℚ) :
    List (String × ℚ) :=
  tokenMappingKeys.map (fun t => (t, galaChainTokenPrice quoteOracle t))

/-- The per-token body of `getBasicGalaChainPrices`
(src/real-trading-server-optimized.js lines 164-189): same quoting logic, but
the failure fallback is `0.0176` for index 0 (GALA) and `0.01` otherwise. -/
def basicGalaChainTokenPrice (quoteOracle : String → String → Option ℚ)
    (index : Nat) (token : String) : ℚ :=
  if token = gusdcKey ∨ token = gusdtKey then 1
  else if token = galaKey then
    match quoteOracle galaKey gusdcKey with
    | some q => q
    | none => if index = 0 then 176/10000 else 1/100
  else
    match quoteOracle token galaKey with
    | some q => q * getGalaUsdPrice quoteOracle
    | none => if index = 0 then 176/10000 else 1/100

/-- `getBasicGalaChainPrices` (src/real-trading-server-optimized.js
lines 152-199): the `priceObject` it returns. -/
def getBasicGalaChainPrices (quoteOracle : String → String → Option ℚ) :
    List (String × ℚ) :=
  tokenMappingKeys.enum.map
    (fun it => (it.2, basicGalaChainTokenPrice quoteOracle it.1 it.2))

/-! ## Rate limiting

`PriceService.canMakeRequest` / `updateLastRequest` (src/price-service.js
lines 92-105) and the server-level `checkRateLimit`
(src/real-trading-server-optimized.js lines 51-70). -/

/-- `PriceService.canMakeRequest` (src/price-service.js lines 92-100): a call
is permitted when `now - lastRequest >= (60 * 1000) / rateLimit`. -/
def canMakeRequest (rateLimit : ℚ) (lastRequest now : ℤ) : Bool :=
  decide (60 * 1000 / rateLimit ≤ ((now - lastRequest : ℤ) : ℚ))

/-- A sequence of calls against one source of `PriceService`: each permitted
call succeeds and runs `updateLastRequest` (src/price-service.js lines 103-105),
a denied call leaves `lastRequest` unchanged. Returns the permit decisions. -/
def runRateLimitedCalls (rateLimit : ℚ) (lastRequest : ℤ) :
    List ℤ → List Bool
  | [] => []
  | t :: rest =>
    if canMakeRequest rateLimit lastRequest t then
      true :: runRateLimitedCalls rateLimit t rest
    else
      false :: runRateLimitedCalls rateLimit lastRequest rest

/-- `checkRateLimit` (src/real-trading-server-optimized.js lines 51-70):
trailing-window counting. Given the recorded timestamps for a client and the
current time, returns the permit decision and the updated recorded list
(unchanged on denial, filtered-plus-now on permit). The server instantiates it
with `MAX_REQUESTS_PER_WINDOW = 200` and `RATE_LIMIT_WINDOW = 60000`, keyed by
client IP. -/
def checkRateLimit (maxRequests : Nat) (window : ℤ) (requests : List ℤ)
    (now : ℤ) : Bool × List ℤ :=
  let windowStart := now - window
  let recentRequests := requests.filter (fun t => decide (windowStart < t))
  if maxRequests ≤ recentRequests.length then (false, requests)
  else (true, recentRequests ++ [now])

/-- The rate-limiting semantics in the spec's words (spec §4.1 and §8, used
only to compare against the source functions above): a call is permitted iff
the count of recorded permitted calls within the trailing 60s window is below
the quota; permitted calls are recorded. -/
def specWindowCalls (quota : Nat) (recorded : List ℤ) : List ℤ → List Bool
  | [] => []
  | t :: rest =>
    if (recorded.filter (fun r => decide (t - 60000 < r))).length < quota then
      true :: specWindowCalls quota (recorded ++ [t]) rest
    else
      false :: specWindowCalls quota recorded rest

/-! ## Circuit breaker and retry (src/error-recovery.js) -/

inductive CBState where
  | closed
  | opened
  | halfOpen
deriving DecidableEq, Repr

/-- `this.circuitBreaker` of `ErrorRecovery` (src/error-recovery.js
lines 15-21): a single object per `ErrorRecovery` instance, holding both the
configuration and the mutable state. There is no per-dependency keying. -/
structure CircuitBreakerState where
  failureThreshold : Nat
  recoveryTimeout : ℤ
  state : CBState
  failureCount : Nat
  lastFailureTime : ℤ
deriving DecidableEq, Repr

/-- The initial breaker of the constructor (src/error-recovery.js
lines 15-21). -/
def initialCircuitBreaker : CircuitBreakerState :=
  { failureThreshold := 5, recoveryTimeout := 30000, state := .closed,
    failureCount := 0, lastFailureTime := 0 }

/-- `this.retryConfig` (src/error-recovery.js lines 8-13). -/
structure RetryConfig where
  maxRetries : Nat
  baseDelay : Nat
  maxDelay : Nat
  backoffMultiplier : Nat
deriving DecidableEq, Repr

def defaultRetryConfig : RetryConfig :=
  { maxRetries := 3, baseDelay := 1000, maxDelay := 10000, backoffMultiplier := 2 }

/-- The backoff delay computed after a failed attempt (src/error-recovery.js
lines 74-77): `min(baseDelay * backoffMultiplier ^ attempt, maxDelay)` for the
0-based failed attempt number. -/
def retryDelay (cfg : RetryConfig) (attempt : Nat) : Nat :=
  min (cfg.baseDelay * cfg.backoffMultiplier ^ attempt) cfg.maxDelay

/-- `ErrorRecovery.onSuccess` (src/error-recovery.js lines 92-98). -/
def onSuccess (cb : CircuitBreakerState) : CircuitBreakerState :=
  if cb.state = .halfOpen then { cb with state := .closed, failureCount := 0 }
  else cb

/-- `ErrorRecovery.onFailure` (src/error-recovery.js lines 103-112): increments
`failureCount`, stamps `lastFailureTime`, and opens the breaker when the count
reaches `failureThreshold`. -/
def onFailure (cb : CircuitBreakerState) (now : ℤ) : CircuitBreakerState :=
  let cb1 := { cb with failureCount := cb.failureCount + 1, lastFailureTime := now }
  if cb1.failureThreshold ≤ cb1.failureCount then { cb1 with state := .opened }
  else cb1

inductive AttemptResult where
  | rejectedOpen
  | succeeded
  | failed
deriving DecidableEq, Repr

/-- One iteration of the retry loop of `ErrorRecovery.executeWithRetry`
(src/error-recovery.js lines 43-83), at time `now`, where `fnSucceeds` says
whether `fn()` would succeed if invoked:
* breaker `OPEN` and `now - lastFailureTime < recoveryTimeout`: throw the
  circuit-open error without invoking `fn`; the throw is caught by the loop's
  own handler, which calls `onFailure` (line 65);
* breaker `OPEN` otherwise: move to `HALF_OPEN` and fall through;
* invoke `fn`; on success call `onSuccess`, on caught failure `onFailure`. -/
def attemptStep (cb : CircuitBreakerState) (now : ℤ) (fnSucceeds : Bool) :
    AttemptResult × CircuitBreakerState :=
  if cb.state = .opened ∧ now - cb.lastFailureTime < cb.recoveryTimeout then
    (.rejectedOpen, onFailure cb now)
  else
    let cb1 := if cb.state = .opened then { cb with state := .halfOpen } else cb
    if fnSucceeds then (.succeeded, onSuccess cb1) else (.failed, onFailure cb1 now)

inductive ExecOutcome where
  | ok
  | err (last : AttemptResult)
deriving DecidableEq, Repr

/-- The whole retry loop of `ErrorRecovery.executeWithRetry`
(src/error-recovery.js lines 39-87), driven by a schedule giving, for each
attempt the loop may make, the wall-clock time of that attempt and whether
`fn()` would succeed then. A schedule of length `maxRetries + 1` models one
call (`for (attempt = 0; attempt <= maxRetries; attempt++)`). Returns the
call's outcome, the final breaker state, and the number of attempts made. -/
def runAttempts (cb : CircuitBreakerState) :
    List (ℤ × Bool) → ExecOutcome × CircuitBreakerState × Nat
  | [] => (.err .failed, cb, 0)
  | (t, f) :: rest =>
    let step := attemptStep cb t f
    match step.1 with
    | .succeeded => (.ok, step.2, 1)
    | r =>
      match rest with
      | [] => (.err r, step.2, 1)
      | _ :: _ =>
        let next := runAttempts step.2 rest
        (next.1, next.2.1, next.2.2 + 1)

/-! ## Freshness gate and swap handler -/

/-- Modelled from the spec: the freshness gate (`isFresh`, spec §4.6; the
implementation, `isPriceDataFresh` in the browser client's `executeTrade`
path per src/NO_FALLBACK_PRICES_SAFETY.md, is not among the files under src).
A price computed at `computedAt` is fresh at `now` when
`now - computedAt < freshnessThreshold` (default threshold 30000 ms). -/
def isFresh (freshnessThreshold : ℤ) (now computedAt : ℤ) : Bool :=
  decide (now - computedAt < freshnessThreshold)

/-- The body of a `POST /api/swap` request
(src/real-trading-server-optimized.js line 428), with the request-or-global
fallback for wallet address and private key already resolved (lines 431-432);
`none` for the private key also covers the empty string (line 442). -/
structure SwapRequest where
  tokenIn : String
  tokenOut : String
  amountIn : ℚ
  amountOutMinimum : ℚ
  walletAddress : Option String
  privateKey : Option String
deriving DecidableEq, Repr

inductive SwapOutcome where
  | walletRequired
  | simulated (amountOut : ℚ)
  | insufficientGala (balance : ℚ)
  | submitted (amountOut : ℚ)
  | errorResponse
deriving DecidableEq, Repr

/-- The decision logic of the `POST /api/swap` handler
(src/real-trading-server-optimized.js lines 425-580): reject without a wallet
address; without a private key return a simulated success built from a quote;
otherwise check the GALA fee balance (`< 1` rejects), quote, and submit the
swap. `galaBalance` is the GALA amount parsed from `getUserAssets`
(0 when absent, lines 490-499); `quoteResult`/`swapSucceeds` are the upstream
SDK outcomes; any upstream throw becomes the catch-all 500 response. The
handler consults no price timestamp or freshness information of any kind. -/
def swapHandler (req : SwapRequest) (galaBalance : ℚ) (quoteResult : Option ℚ)
    (swapSucceeds : Bool) : SwapOutcome :=
  match req.walletAddress with
  | none => .walletRequired
  | some _ =>
    match req.privateKey with
    | none =>
      match quoteResult with
      | some q => .simulated q
      | none => .errorResponse
    | some _ =>
      if galaBalance < 1 then .insufficientGala galaBalance
      else
        match quoteResult with
        | none => .errorResponse
        | some q => if swapSucceeds then .submitted q else .errorResponse

/-! ## Shared helper lemmas -/

theorem lookupKey_mem {α : Type} :
    ∀ (l : List (String × α)) (key : String) (v : α),
      lookupKey l key = some v → (key, v) ∈ l
  | [], _, _, h => by simp [lookupKey] at h
  | (s, p) :: rest, key, v, h => by
    by_cases hs : s = key
    · subst hs
      simp [lookupKey] at h
      simp [h]
    · simp [lookupKey, hs] at h
      exact List.mem_cons_of_mem _ (lookupKey_mem rest key v h)

theorem contributingPrices_pos (priceData : List SourceResult) (token : String)
    (s : String) (p : ℚ) (h : (s, p) ∈ contributingPrices priceData token) :
    0 < p := by
  simp only [contributingPrices, List.mem_filterMap] at h
  obtain ⟨sr, _, hsr⟩ := h
  unfold contributionOf at hsr
  cases hl : lookupKey sr.prices token with
  | none => simp [hl] at hsr
  | some q =>
    simp only [hl] at hsr
    by_cases hq : q ≠ 0 ∧ 0 < q
    · rw [if_pos hq] at hsr
      simp only [Option.some.injEq, Prod.mk.injEq] at hsr
      exact hsr.2 ▸ hq.2
    · rw [if_neg hq] at hsr
      exact absurd hsr (by simp)

theorem onFailure_failureCount (cb : CircuitBreakerState) (now : ℤ) :
    (onFailure cb now).failureCount = cb.failureCount + 1 := by
  simp only [onFailure]
  split <;> rfl

theorem onFailure_lastFailureTime (cb : CircuitBreakerState) (now : ℤ) :
    (onFailure cb now).lastFailureTime = now := by
  simp only [onFailure]
  split <;> rfl

theorem attemptStep_not_succeeded_count (cb : CircuitBreakerState) (now : ℤ)
    (f : Bool) (h : (attemptStep cb now f).1 ≠ .succeeded) :
    (attemptStep cb now f).2.failureCount = cb.failureCount + 1 := by
  by_cases hc : cb.state = .opened ∧ now - cb.lastFailureTime < cb.recoveryTimeout
  · simp only [attemptStep, if_pos hc]
    exact onFailure_failureCount cb now
  · simp only [attemptStep, if_neg hc] at h ⊢
    cases f with
    | true => simp at h
    | false =>
      simp only [Bool.false_eq_true, if_false]
      rw [onFailure_failureCount]
      congr 1
      split <;> rfl

theorem runAttempts_count_le :
    ∀ (schedule : List (ℤ × Bool)) (cb : CircuitBreakerState),
      (runAttempts cb schedule).2.2 ≤ schedule.length
  | [], cb => by simp [runAttempts]
  | (t, f) :: rest, cb => by
    simp only [runAttempts]
    cases hs : (attemptStep cb t f).1 with
    | succeeded => simp
    | rejectedOpen =>
      cases rest with
      | nil => simp
      | cons a l =>
        have := runAttempts_count_le (a :: l) (attemptStep cb t f).2
        simp only [List.length_cons] at *
        omega
    | failed =>
      cases rest with
      | nil => simp
      | cons a l =>
        have := runAttempts_count_le (a :: l) (attemptStep cb t f).2
        simp only [List.length_cons] at *
        omega

theorem runAttempts_err_failureCount :
    ∀ (schedule : List (ℤ × Bool)) (cb : CircuitBreakerState) (r : AttemptResult),
      (runAttempts cb schedule).1 = .err r →
      (runAttempts cb schedule).2.1.failureCount
        = cb.failureCount + (runAttempts cb schedule).2.2
  | [], cb, r, _ => by simp [runAttempts]
  | (t, f) :: rest, cb, r, h => by
    simp only [runAttempts] at h ⊢
    cases hs : (attemptStep cb t f).1 with
    | succeeded => simp [hs] at h
    | rejectedOpen =>
      have hns : (attemptStep cb t f).1 ≠ .succeeded := by simp [hs]
      cases rest with
      | nil => simpa using attemptStep_not_succeeded_count cb t f hns
      | cons a l =>
        simp only [hs] at h ⊢
        have ih := runAttempts_err_failureCount (a :: l) (attemptStep cb t f).2 r h
        rw [ih, attemptStep_not_succeeded_count cb t f hns]
        ring
    | failed =>
      have hns : (attemptStep cb t f).1 ≠ .succeeded := by simp [hs]
      cases rest with
      | nil => simpa using attemptStep_not_succeeded_count cb t f hns
      | cons a l =>
        simp only [hs] at h ⊢
        have ih := runAttempts_err_failureCount (a :: l) (attemptStep cb t f).2 r h
        rw [ih, attemptStep_not_succeeded_count cb t f hns]
        ring

/-! ## Claim C3: circuit breaker state machine -/

/-- Concrete breaker trace: one `executeWithRetry` call against a failing
dependency (attempt times follow the default backoff: 0, 1000, 3000, 7000). -/
def cSchedule1 : List (ℤ × Bool) := [(0, false), (1000, false), (3000, false), (7000, false)]

def cbAfterCall1 : CircuitBreakerState := (runAttempts initialCircuitBreaker cSchedule1).2.1

/-- A second failing call: its first attempt at t=8000 records the 5th
consecutive failure and opens the breaker; its remaining attempts are
rejected-while-open, each recording a further failure. -/
def cSchedule2 : List (ℤ × Bool) := [(8000, false), (9000, false), (11000, false), (15000, false)]

def cbAfterCall2 : CircuitBreakerState := (runAttempts cbAfterCall1 cSchedule2).2.1

/-- C3 counterexample: the breaker (default `failureThreshold` 5,
`recoveryTimeout` 30000 ms) transitions to Open at t=8000, so by the claim a
call at t=39000 (31000 ms after `openedAt`) must be allowed through; but the
code compares against `lastFailureTime`, which the rejected-while-open attempts
of the second call pushed to 15000, so the call at t=39000 is rejected with the
circuit-open error without invoking the wrapped function even though it would
have succeeded. -/
theorem C3_counterexample :
    cbAfterCall1.state = .closed ∧
    (runAttempts cbAfterCall1 [(8000, false)]).2.1.state = .opened ∧
    (runAttempts cbAfterCall1 [(8000, false)]).2.1.lastFailureTime = 8000 ∧
    cbAfterCall2.state = .opened ∧
    initialCircuitBreaker.recoveryTimeout ≤ 39000 - 8000 ∧
    (runAttempts cbAfterCall2 [(39000, true)]).1 = .err .rejectedOpen := by
  decide

/-- C3 (amended): with `failureThreshold` reached the breaker opens; while
`now - lastFailureTime < recoveryTimeout` every attempt is rejected with the
circuit-open error without invoking the wrapped function (the outcome is
independent of what the function would do) and itself records a failure,
stamping `lastFailureTime := now`; once `recoveryTimeout` has elapsed since the
most recent recorded failure the next attempt runs the wrapped function
(Half-Open): success closes the breaker and resets the failure counter, failure
re-opens it and stamps `lastFailureTime`. -/
theorem C3_amended (cb : CircuitBreakerState) (now : ℤ) (f : Bool) :
    (cb.state = .closed → cb.failureThreshold ≤ cb.failureCount + 1 →
       ((attemptStep cb now false).1 = .failed ∧
        (attemptStep cb now false).2.state = .opened ∧
        (attemptStep cb now false).2.lastFailureTime = now)) ∧
    (cb.state = .opened → now - cb.lastFailureTime < cb.recoveryTimeout →
       ((attemptStep cb now f).1 = .rejectedOpen ∧
        attemptStep cb now f = attemptStep cb now (!f) ∧
        (attemptStep cb now f).2.lastFailureTime = now)) ∧
    (cb.state = .opened → cb.recoveryTimeout ≤ now - cb.lastFailureTime →
       ((attemptStep cb now true).1 = .succeeded ∧
        (attemptStep cb now true).2.state = .closed ∧
        (attemptStep cb now true).2.failureCount = 0 ∧
        (cb.failureThreshold ≤ cb.failureCount + 1 →
           (attemptStep cb now false).1 = .failed ∧
           (attemptStep cb now false).2.state = .opened ∧
           (attemptStep cb now false).2.lastFailureTime = now))) := by
  refine ⟨fun hcl hth => ?_, fun hop hin => ?_, fun hop hel => ?_⟩
  · have hno : ¬ cb.state = .opened := by rw [hcl]; intro h; cases h
    have hc : ¬ (cb.state = .opened ∧ now - cb.lastFailureTime < cb.recoveryTimeout) :=
      fun h => hno h.1
    have hstep : attemptStep cb now false = (.failed, onFailure cb now) := by
      simp [attemptStep, if_neg hc, if_neg hno]
    rw [hstep]
    refine ⟨rfl, ?_, onFailure_lastFailureTime cb now⟩
    show (onFailure cb now).state = .opened
    simp only [onFailure]
    rw [if_pos hth]
  · have hc : cb.state = .opened ∧ now - cb.lastFailureTime < cb.recoveryTimeout := ⟨hop, hin⟩
    have hstep : ∀ (g : Bool), attemptStep cb now g = (.rejectedOpen, onFailure cb now) := by
      intro g
      simp [attemptStep, if_pos hc]
    rw [hstep f, hstep (!f)]
    exact ⟨rfl, rfl, onFailure_lastFailureTime cb now⟩
  · have hc : ¬ (cb.state = .opened ∧ now - cb.lastFailureTime < cb.recoveryTimeout) :=
      fun h => absurd h.2 (not_lt.mpr hel)
    have hsucc : attemptStep cb now true
        = (.succeeded, onSuccess { cb with state := .halfOpen }) := by
      simp [attemptStep, if_neg hc, if_pos hop]
    have hfail : attemptStep cb now false
        = (.failed, onFailure { cb with state := .halfOpen } now) := by
      simp [attemptStep, if_neg hc, if_pos hop]
    refine ⟨?_, ?_, ?_, fun hth => ⟨?_, ?_, ?_⟩⟩
    · rw [hsucc]
    · rw [hsucc]; simp [onSuccess]
    · rw [hsucc]; simp [onSuccess]
    · rw [hfail]
    · rw [hfail]
      show (onFailure { cb with state := .halfOpen } now).state = .opened
      simp only [onFailure]
      rw [if_pos hth]
    · rw [hfail]; exact onFailure_lastFailureTime _ now

def cbOpenEx : CircuitBreakerState := ⟨5, 30000, .opened, 5, 8000⟩

/-- Witness for C3 (amended) at a concrete open breaker. -/
theorem C3_amended_witness :
    ((attemptStep cbOpenEx 9000 true).1 = .rejectedOpen ∧
     attemptStep cbOpenEx 9000 true = attemptStep cbOpenEx 9000 (!true) ∧
     (attemptStep cbOpenEx 9000 true).2.lastFailureTime = 9000) ∧
    ((attemptStep cbOpenEx 40000 true).1 = .succeeded ∧
     (attemptStep cbOpenEx 40000 true).2.state = .closed ∧
     (attemptStep cbOpenEx 40000 true).2.failureCount = 0 ∧
     (cbOpenEx.failureThreshold ≤ cbOpenEx.failureCount + 1 →
        (attemptStep cbOpenEx 40000 false).1 = .failed ∧
        (attemptStep cbOpenEx 40000 false).2.state = .opened ∧
        (attemptStep cbOpenEx 40000 false).2.lastFailureTime = 40000)) :=
  ⟨(C3_amended cbOpenEx 9000 true).2.1 rfl (by decide),
   (C3_amended cbOpenEx 40000 true).2.2 rfl (by decide)⟩

/-! ## Claim C7: how retries count toward the breaker -/

/-- C7 counterexample: a single `executeWithRetry` call against a fresh breaker
whose wrapped function always fails advances `failureCount` from 0 to 4 (once
per failed attempt), not by one. -/
theorem C7_counterexample :
    initialCircuitBreaker.failureCount = 0 ∧
    (runAttempts initialCircuitBreaker cSchedule1).1 = .err .failed ∧
    (runAttempts initialCircuitBreaker cSchedule1).2.1.failureCount = 4 ∧
    ¬ (4 : Nat) = 0 + 1 := by
  decide

/-- C7 (amended): every failed attempt — including attempts rejected while the
breaker is open — increments `failureCount` by one, so a call that exhausts its
retries advances the failure count by the number of attempts it made
(`maxRetries + 1` for a fresh call with the default schedule), not by one. -/
theorem C7_amended (cb : CircuitBreakerState) (schedule : List (ℤ × Bool))
    (r : AttemptResult) (h : (runAttempts cb schedule).1 = .err r) :
    (runAttempts cb schedule).2.1.failureCount
      = cb.failureCount + (runAttempts cb schedule).2.2 :=
  runAttempts_err_failureCount schedule cb r h

/-- Witness for C7 (amended): the always-failing 4-attempt call. -/
theorem C7_amended_witness :
    (runAttempts initialCircuitBreaker cSchedule1).2.1.failureCount
      = initialCircuitBreaker.failureCount
        + (runAttempts initialCircuitBreaker cSchedule1).2.2 :=
  C7_amended initialCircuitBreaker cSchedule1 .failed (by decide)

/-! ## Claim C8: retry count and backoff delays -/

/-- C8 counterexample: the loop `for (attempt = 0; attempt <= maxRetries;
attempt++)` makes 4 attempts for the default `maxRetries = 3`, contradicting
"at most maxRetries (default 3) attempts per call". -/
theorem C8_counterexample :
    cSchedule1.length = defaultRetryConfig.maxRetries + 1 ∧
    (runAttempts initialCircuitBreaker cSchedule1).2.2 = 4 ∧
    defaultRetryConfig.maxRetries = 3 ∧
    ¬ ((4 : Nat) ≤ 3) := by
  decide

/-- C8 (amended): a call makes at most `maxRetries + 1` attempts (one initial
attempt plus up to `maxRetries` retries), and the delay before the retry
following 0-based attempt `n` is `min(baseDelay * backoffMultiplier ^ n,
maxDelay)`; with the defaults (base 1s, multiplier 2, cap 10s) the three
retry delays are 1000, 2000 and 4000 ms. -/
theorem C8_amended (cfg : RetryConfig) (cb : CircuitBreakerState)
    (schedule : List (ℤ × Bool)) (n : Nat)
    (h : schedule.length = cfg.maxRetries + 1) :
    (runAttempts cb schedule).2.2 ≤ cfg.maxRetries + 1 ∧
    retryDelay cfg n = min (cfg.baseDelay * cfg.backoffMultiplier ^ n) cfg.maxDelay ∧
    retryDelay defaultRetryConfig 0 = 1000 ∧
    retryDelay defaultRetryConfig 1 = 2000 ∧
    retryDelay defaultRetryConfig 2 = 4000 :=
  ⟨h ▸ runAttempts_count_le schedule cb, rfl, by decide, by decide, by decide⟩

/-- Witness for C8 (amended) at the concrete default-length schedule. -/
theorem C8_amended_witness :
    (runAttempts initialCircuitBreaker cSchedule1).2.2
        ≤ defaultRetryConfig.maxRetries + 1 ∧
    retryDelay defaultRetryConfig 2
        = min (defaultRetryConfig.baseDelay * defaultRetryConfig.backoffMultiplier ^ 2)
            defaultRetryConfig.maxDelay ∧
    retryDelay defaultRetryConfig 0 = 1000 ∧
    retryDelay defaultRetryConfig 1 = 2000 ∧
    retryDelay defaultRetryConfig 2 = 4000 :=
  C8_amended defaultRetryConfig initialCircuitBreaker cSchedule1 2 (by decide)

/-! ## Claim C9: breaker state is shared, not per-dependency -/

/-- C9 counterexample: `ErrorRecovery` holds one `circuitBreaker` object and
`executeWithRetry` takes no dependency id. After the failures of the calls
behind `cbAfterCall2` (all wrapping one dependency), a call at t=16000 whose
wrapped function would succeed — e.g. one targeting a different, healthy
dependency — is rejected with the circuit-open error, while the same call
against an unshared fresh breaker succeeds. -/
theorem C9_counterexample :
    (runAttempts cbAfterCall2 [(16000, true)]).1 = .err .rejectedOpen ∧
    (runAttempts initialCircuitBreaker [(16000, true)]).1 = .ok := by
  decide

/-- C9 (amended): the breaker state is global to the `ErrorRecovery` instance
and shared by all wrapped calls; while it is open and within the recovery
window, a call is rejected regardless of the wrapped function — i.e.
regardless of which dependency the call targets — so a consistently failing
dependency does cause calls to a different dependency to be rejected. -/
theorem C9_amended (cb : CircuitBreakerState) (now : ℤ) (f g : Bool)
    (h1 : cb.state = .opened)
    (h2 : now - cb.lastFailureTime < cb.recoveryTimeout) :
    (runAttempts cb [(now, f)]).1 = .err .rejectedOpen ∧
    runAttempts cb [(now, f)] = runAttempts cb [(now, g)] := by
  have hc : cb.state = .opened ∧ now - cb.lastFailureTime < cb.recoveryTimeout := ⟨h1, h2⟩
  constructor
  · simp [runAttempts, attemptStep, if_pos hc]
  · simp [runAttempts, attemptStep, if_pos hc]

/-- Witness for C9 (amended) at the concrete shared breaker. -/
theorem C9_amended_witness :
    (runAttempts cbAfterCall2 [(20000, true)]).1 = .err .rejectedOpen ∧
    runAttempts cbAfterCall2 [(20000, true)] = runAttempts cbAfterCall2 [(20000, false)] :=
  C9_amended cbAfterCall2 20000 true false (by decide) (by decide)

/-! ## Claim C1: fabricated fallback prices -/

/-- C1 (code bug): with every upstream quote failing (no real price obtained
for any non-stablecoin asset), `fetchGalaChainPrices` still emits an entry for
every token — `0.01` for GALA and FILM among others — `getGalaUsdPrice`
returns the fabricated `0.015`, and `getBasicGalaChainPrices` emits the
fabricated `0.0176` for GALA; none of these assets is absent or null in the
output, contradicting the no-fabricated-price invariant (and the repository's
own src/NO_FALLBACK_PRICES_SAFETY.md, which states all fallback prices were
removed). -/
theorem C1_code_bug :
    lookupKey (fetchGalaChainPrices (fun _ _ => none)) galaKey = some (1/100) ∧
    lookupKey (fetchGalaChainPrices (fun _ _ => none)) "FILM|Unit|none|none" = some (1/100) ∧
    getGalaUsdPrice (fun _ _ => none) = 15/1000 ∧
    lookupKey (getBasicGalaChainPrices (fun _ _ => none)) galaKey = some (176/10000) ∧
    (fetchGalaChainPrices (fun _ _ => none)).length = tokenMappingKeys.length :=
  ⟨rfl, rfl, rfl, rfl, rfl⟩

/-! ## Claim C2: freshness gate and the swap handler -/

/-- C2 counterexample: at time 60000 a price computed at time 0 fails the
30-second freshness gate, yet the `POST /api/swap` handler — which consults no
freshness information at all — submits the swap instead of rejecting it with a
stale-price condition. -/
theorem C2_counterexample :
    isFresh 30000 60000 0 = false ∧
    swapHandler ⟨galaKey, gusdcKey, 10, 9, some "eth|wallet", some "key"⟩ 5
        (some (17/100)) true
      = .submitted (17/100) :=
  ⟨rfl, rfl⟩

/-- C2 (amended): the freshness gate (client-side, modelled from the spec)
returns false exactly when `now - computedAt >= freshnessThreshold`, boundary
included; but the server-side swap handler performs no freshness check: for
any staleness whatsoever of the involved assets' prices, a request with a
wallet address, a private key and at least 1 GALA for fees whose quote and
swap succeed is submitted. Stale-price rejection is left entirely to the
browser client's `executeTrade`. -/
theorem C2_amended (threshold now computedAt : ℤ) (req : SwapRequest)
    (galaBalance q : ℚ) (w k : String)
    (hw : req.walletAddress = some w) (hk : req.privateKey = some k)
    (hb : 1 ≤ galaBalance) :
    (isFresh threshold now computedAt = false ↔ threshold ≤ now - computedAt) ∧
    swapHandler req galaBalance (some q) true = .submitted q := by
  constructor
  · simp [isFresh, not_lt]
  · simp only [swapHandler, hw, hk]
    rw [if_neg (not_lt.mpr hb)]
    simp

/-- Witness for C2 (amended): the gate boundary at exactly 30s, and a concrete
accepted request. -/
theorem C2_amended_witness :
    (isFresh 30000 50000 20000 = false ↔ (30000 : ℤ) ≤ 50000 - 20000) ∧
    swapHandler ⟨galaKey, gusdcKey, 10, 9, some "eth|wallet", some "key"⟩ 5
        (some (17/100)) true
      = .submitted (17/100) :=
  C2_amended 30000 50000 20000 ⟨galaKey, gusdcKey, 10, 9, some "eth|wallet", some "key"⟩
    5 (17/100) "eth|wallet" "key" rfl rfl (by norm_num)

/-! ## Claim C6: rate limiting semantics -/

/-- C6 counterexample: `PriceService.canMakeRequest` with a quota of 2 per
minute enforces a 30s minimum interval, so of three rapid successive calls
(1 ms apart, `lastRequest` initially 0) only the first is permitted — the
second is already denied — whereas the claimed trailing-window counting
semantics would permit the first two and deny only the third. -/
theorem C6_counterexample :
    runRateLimitedCalls 2 0 [100000, 100001, 100002] = [true, false, false] ∧
    specWindowCalls 2 [] [100000, 100001, 100002] = [true, true, false] ∧
    ¬ runRateLimitedCalls 2 0 [100000, 100001, 100002]
        = specWindowCalls 2 [] [100000, 100001, 100002] := by
  refine ⟨?_, by decide, ?_⟩ <;>
    norm_num [runRateLimitedCalls, canMakeRequest, specWindowCalls]

/-- C6 (amended): the per-source limiter of `PriceService` permits a call
exactly when `now - lastRequest >= 60000 / rateLimit` (minimum spacing, not
window counting), so with a quota of 2 per minute only the first of three
rapid successive calls is permitted, the others being denied until 30s have
passed since the last permitted call; the server-level `checkRateLimit` does
implement trailing-60s-window counting — permitting a call exactly when the
recorded count in the window is below the quota, and recording permitted
calls — but it is keyed per client with a fixed quota of 200 per minute, not
per source. -/
theorem C6_amended (rl : ℚ) (lastRequest now : ℤ) (m : Nat) (w : ℤ)
    (requests : List ℤ) (t : ℤ) :
    (canMakeRequest rl lastRequest now = true
       ↔ 60 * 1000 / rl ≤ ((now - lastRequest : ℤ) : ℚ)) ∧
    ((checkRateLimit m w requests t).1 = true
       ↔ (requests.filter (fun x => decide (t - w < x))).length < m) ∧
    ((checkRateLimit m w requests t).1 = true →
       (checkRateLimit m w requests t).2
         = requests.filter (fun x => decide (t - w < x)) ++ [t]) ∧
    runRateLimitedCalls 2 0 [100000, 100001, 100002] = [true, false, false] := by
  refine ⟨by simp [canMakeRequest], ?_, ?_, ?_⟩
  · constructor
    · intro h
      simp only [checkRateLimit] at h
      split at h
      · simp at h
      · next hgt => exact Nat.not_le.mp hgt
    · intro h
      simp only [checkRateLimit]
      rw [if_neg (Nat.not_le.mpr h)]
  · intro h
    by_cases hc : m ≤ (requests.filter (fun x => decide (t - w < x))).length
    · exfalso
      simp only [checkRateLimit] at h
      rw [if_pos hc] at h
      exact absurd h (by simp)
    · simp only [checkRateLimit]
      rw [if_neg hc]
  · norm_num [runRateLimitedCalls, canMakeRequest]

/-- Witness for C6 (amended): concrete permitted calls under both limiters. -/
theorem C6_witness :
    canMakeRequest 2 0 100000 = true ∧
    (checkRateLimit 2 60000 [100] 30000).2 = [100, 30000] :=
  ⟨(C6_amended 2 0 100000 2 60000 [100] 30000).1.mpr (by norm_num),
   by
    have h := (C6_amended 2 0 100000 2 60000 [100] 30000).2.2.1 (by decide)
    simpa using h⟩

/-! ## Reconciler helper lemmas -/

theorem comparePricesToken_some (cfg : ComparisonConfig) (enabled : String → Bool)
    (priceData : List SourceResult) (token : String) (e : ComparisonEntry)
    (h : comparePricesToken cfg enabled priceData token = some e) :
    e.prices = contributingPrices priceData token ∧
    e.average = (e.prices.map Prod.snd).sum / (((e.prices.map Prod.snd).length : ℚ)) ∧
    e.maxP = listMax (e.prices.map Prod.snd) ∧
    e.minP = listMin (e.prices.map Prod.snd) ∧
    e.variance = ((e.maxP - e.minP) / e.average) * 100 ∧
    e.recommended = selectBestPrice cfg enabled e.prices e.average e.variance := by
  simp only [comparePricesToken] at h
  split at h
  · exact absurd h (by simp)
  · injection h with h
    subst h
    exact ⟨rfl, rfl, rfl, rfl, rfl, rfl⟩

/-- The Boolean test of the priority walk on one source: a truthy price entry
that is enabled. -/
def hasUsablePrice (enabled : String → Bool) (prices : List (String × ℚ))
    (s : String) : Bool :=
  match lookupKey prices s with
  | some p => decide (p ≠ 0) && enabled s
  | none => false

theorem findPrioritySource_eq (enabled : String → Bool) (prices : List (String × ℚ)) :
    ∀ l : List String,
      findPrioritySource enabled prices l
        = (l.find? (hasUsablePrice enabled prices)).bind
            (fun s => (lookupKey prices s).map (fun p => (s, p)))
  | [] => rfl
  | s :: rest => by
    cases hl : lookupKey prices s with
    | none =>
      have hp : ¬ hasUsablePrice enabled prices s = true := by
        simp [hasUsablePrice, hl]
      rw [List.find?_cons_of_neg _ hp]
      simp only [findPrioritySource, hl]
      exact findPrioritySource_eq enabled prices rest
    | some p =>
      cases hb : (decide (p ≠ 0) && enabled s) with
      | true =>
        have hcond : p ≠ 0 ∧ enabled s = true := by
          simpa [Bool.and_eq_true, decide_eq_true_eq] using hb
        have hp : hasUsablePrice enabled prices s = true := by
          simp only [hasUsablePrice, hl]
          exact hb
        rw [List.find?_cons_of_pos _ hp]
        simp only [findPrioritySource, hl]
        rw [if_pos hcond]
        simp [hl]
      | false =>
        have hcond : ¬ (p ≠ 0 ∧ enabled s = true) := by
          rintro ⟨h1, h2⟩
          simp [decide_eq_true h1, h2] at hb
        have hp : ¬ hasUsablePrice enabled prices s = true := by
          simp only [hasUsablePrice, hl]
          rw [hb]
          simp
        rw [List.find?_cons_of_neg _ hp]
        simp only [findPrioritySource, hl]
        rw [if_neg hcond]
        exact findPrioritySource_eq enabled prices rest

theorem hasUsablePrice_of_pos (enabled : String → Bool) (prices : List (String × ℚ))
    (hpos : ∀ s p, (s, p) ∈ prices → 0 < p) :
    (fun x => (lookupKey prices x).isSome && enabled x) = hasUsablePrice enabled prices := by
  funext x
  cases hl : lookupKey prices x with
  | none => simp [hasUsablePrice, hl]
  | some p =>
    have hp : 0 < p := hpos x p (lookupKey_mem prices x p hl)
    simp [hasUsablePrice, hl, ne_of_gt hp]

/-! ## Claim C4: variance formula and below-threshold averaging -/

/-- C4: whenever an asset has at least one contributing source, the comparison
entry's variance is `(max - min) / average * 100` over the contributing prices,
the average is their arithmetic mean, and when the variance is strictly below
the configured threshold with averaging enabled the recommendation is the mean
with source "average". -/
theorem C4_theorem (cfg : ComparisonConfig) (enabled : String → Bool)
    (priceData : List SourceResult) (token : String) (e : ComparisonEntry)
    (h : comparePricesToken cfg enabled priceData token = some e) :
    e.prices = contributingPrices priceData token ∧
    e.average = (e.prices.map Prod.snd).sum / (((e.prices.map Prod.snd).length : ℚ)) ∧
    e.maxP = listMax (e.prices.map Prod.snd) ∧
    e.minP = listMin (e.prices.map Prod.snd) ∧
    e.variance = ((e.maxP - e.minP) / e.average) * 100 ∧
    (e.variance < cfg.maxVariancePercent → cfg.fallbackToAverage = true →
      e.recommended = ("average", e.average)) := by
  obtain ⟨h1, h2, h3, h4, h5, h6⟩ := comparePricesToken_some cfg enabled priceData token e h
  refine ⟨h1, h2, h3, h4, h5, fun hv hf => ?_⟩
  rw [h6]
  simp only [selectBestPrice]
  rw [if_pos ⟨hv, hf⟩]

/-- Sources for the spec's below-threshold scenario: 0.018 and 0.019 for the
same asset. -/
def c4Data : List SourceResult :=
  [⟨"coingecko", [(galaKey, 18/1000)]⟩, ⟨"coinmarketcap", [(galaKey, 19/1000)]⟩]

def c4Entry : ComparisonEntry :=
  { prices := [("coingecko", 18/1000), ("coinmarketcap", 19/1000)]
    average := 37/2000
    maxP := 19/1000
    minP := 18/1000
    variance := 200/37
    recommended := ("average", 37/2000) }

/-- Witness for C4 at the spec's scenario: variance ≈ 5.4% < 10%, recommended
price is the mean 0.0185 from source "average". -/
theorem C4_witness :
    c4Entry.variance = ((c4Entry.maxP - c4Entry.minP) / c4Entry.average) * 100 ∧
    c4Entry.variance < defaultComparisonConfig.maxVariancePercent ∧
    c4Entry.recommended = ("average", c4Entry.average) := by
  have h := C4_theorem defaultComparisonConfig (fun _ => true) c4Data galaKey c4Entry (by
    norm_num [comparePricesToken, contributingPrices, contributionOf, List.filterMap_cons,
      lookupKey, listMax, listMin, selectBestPrice, findPrioritySource, sourcePriority,
      defaultComparisonConfig, c4Data, c4Entry, galaKey]
    simp)
  exact ⟨h.2.2.2.2.1, by norm_num [c4Entry, defaultComparisonConfig],
    h.2.2.2.2.2 (by norm_num [c4Entry, defaultComparisonConfig]) rfl⟩

/-! ## Claim C5: at-or-above-threshold priority selection -/

/-- C5: when the variance is at or above the threshold (or averaging is
disabled), the recommendation is the first source in the configured priority
order that is enabled and has a price for the asset; if no priority source
qualifies, it falls back to the mean. -/
theorem C5_theorem (cfg : ComparisonConfig) (enabled : String → Bool)
    (priceData : List SourceResult) (token : String) (e : ComparisonEntry)
    (h : comparePricesToken cfg enabled priceData token = some e)
    (hv : ¬ (e.variance < cfg.maxVariancePercent ∧ cfg.fallbackToAverage = true)) :
    (∃ s p, (sourcePriority cfg).find?
          (fun x => (lookupKey e.prices x).isSome && enabled x) = some s ∧
        lookupKey e.prices s = some p ∧ e.recommended = (s, p)) ∨
    ((sourcePriority cfg).find?
          (fun x => (lookupKey e.prices x).isSome && enabled x) = none ∧
       e.recommended = ("average", e.average)) := by
  obtain ⟨h1, -, -, -, -, h6⟩ := comparePricesToken_some cfg enabled priceData token e h
  have hpos : ∀ s p, (s, p) ∈ e.prices → 0 < p := by
    intro s p hm
    exact contributingPrices_pos priceData token s p (h1 ▸ hm)
  rw [h6]
  simp only [selectBestPrice, if_neg hv]
  rw [hasUsablePrice_of_pos enabled e.prices hpos,
    findPrioritySource_eq enabled e.prices (sourcePriority cfg)]
  cases hf : (sourcePriority cfg).find? (hasUsablePrice enabled e.prices) with
  | none => exact Or.inr ⟨rfl, by simp⟩
  | some s =>
    have hps : hasUsablePrice enabled e.prices s = true := List.find?_some hf
    cases hl : lookupKey e.prices s with
    | none => simp [hasUsablePrice, hl] at hps
    | some p => exact Or.inl ⟨s, p, rfl, hl, by simp [hl]⟩

/-- Sources for the spec's above-threshold scenario: 0.015 and 0.021 for the
same asset (variance ≈ 33%), priority preferring the external market source. -/
def c5Data : List SourceResult :=
  [⟨"coingecko", [(galaKey, 15/1000)]⟩, ⟨"coinmarketcap", [(galaKey, 21/1000)]⟩]

def c5Entry : ComparisonEntry :=
  { prices := [("coingecko", 15/1000), ("coinmarketcap", 21/1000)]
    average := 9/500
    maxP := 21/1000
    minP := 15/1000
    variance := 100/3
    recommended := ("coinmarketcap", 21/1000) }

/-- Witness for C5 at the spec's scenario: variance 100/3 ≥ 10, so the first
available priority source (coinmarketcap) is recommended at 0.021. -/
theorem C5_witness :
    (∃ s p, (sourcePriority defaultComparisonConfig).find?
          (fun x => (lookupKey c5Entry.prices x).isSome && (fun _ => true) x) = some s ∧
        lookupKey c5Entry.prices s = some p ∧ c5Entry.recommended = (s, p)) ∨
    ((sourcePriority defaultComparisonConfig).find?
          (fun x => (lookupKey c5Entry.prices x).isSome && (fun _ => true) x) = none ∧
       c5Entry.recommended = ("average", c5Entry.average)) :=
  C5_theorem defaultComparisonConfig (fun _ => true) c5Data galaKey c5Entry
    (by
      norm_num [comparePricesToken, contributingPrices, contributionOf, List.filterMap_cons,
        lookupKey, listMax, listMin, selectBestPrice, findPrioritySource, sourcePriority,
        defaultComparisonConfig, c5Data, c5Entry, galaKey]
      simp)
    (by norm_num [c5Entry, defaultComparisonConfig])

/-! ## Claim C10: non-positive or missing per-source prices contribute nothing -/

/-- The Boolean form of "this source has no usable price for the token":
the entry is missing, zero, or negative (falsy or failing the `> 0` check of
`comparePrices`). -/
def nonContributing (prices : List (String × ℚ)) (token : String) : Bool :=
  match lookupKey prices token with
  | some p => decide (p ≤ 0)
  | none => true

theorem contributionOf_eq_none (token : String) (sr : SourceResult)
    (h : nonContributing sr.prices token = true) :
    contributionOf token sr = none := by
  unfold contributionOf
  cases hl : lookupKey sr.prices token with
  | none => rfl
  | some p =>
    have hple : p ≤ 0 := by
      simp only [nonContributing, hl, decide_eq_true_eq] at h
      exact h
    show (if p ≠ 0 ∧ 0 < p then some (sr.source, p) else none) = none
    rw [if_neg]
    rintro ⟨-, hp⟩
    exact absurd hp (not_lt.mpr hple)

/-- C10: a per-source price entry that is missing, zero, or negative is
treated as if the source had no price for the asset — removing such a source
from the reconciliation input leaves the asset's comparison entry (average,
min/max, variance, recommendation) unchanged — and an asset for which every
source reports a non-positive or missing price contributes no entry and is
entirely absent from the reconciled output. -/
theorem C10_theorem (cfg : ComparisonConfig) (enabled : String → Bool)
    (tokens : List String) (l1 l2 priceData : List SourceResult)
    (sr : SourceResult) (token : String) :
    (nonContributing sr.prices token = true →
       comparePricesToken cfg enabled (l1 ++ sr :: l2) token
         = comparePricesToken cfg enabled (l1 ++ l2) token) ∧
    ((∀ r ∈ priceData, nonContributing r.prices token = true) →
       contributingPrices priceData token = [] ∧
       comparePricesToken cfg enabled priceData token = none ∧
       lookupKey (comparePrices cfg enabled tokens priceData) token = none) := by
  constructor
  · intro h
    have hc : contributingPrices (l1 ++ sr :: l2) token
        = contributingPrices (l1 ++ l2) token := by
      simp only [contributingPrices, List.filterMap_append, List.filterMap_cons,
        contributionOf_eq_none token sr h]
    simp only [comparePricesToken, hc]
  · intro h
    have hc : contributingPrices priceData token = [] := by
      simp only [contributingPrices, List.filterMap_eq_nil_iff]
      exact fun r hr => contributionOf_eq_none token r (h r hr)
    have hnone : comparePricesToken cfg enabled priceData token = none := by
      simp only [comparePricesToken, hc]
      simp
    refine ⟨hc, hnone, ?_⟩
    induction tokens with
    | nil => rfl
    | cons t rest ih =>
      simp only [comparePrices, List.filterMap_cons]
      cases hg : comparePricesToken cfg enabled priceData t with
      | none => exact ih
      | some eg =>
        have ht : ¬ t = token := by
          intro ht2
          rw [ht2, hnone] at hg
          cases hg
        show lookupKey ((t, eg) :: comparePrices cfg enabled rest priceData) token = none
        simp only [lookupKey]
        rw [if_neg ht]
        exact ih

def c10BadSource : SourceResult := ⟨"galachain", [("X", -5)]⟩

def c10GoodData : List SourceResult := [⟨"coingecko", [("X", 18/1000)]⟩]

def c10AllBad : List SourceResult :=
  [⟨"coingecko", [("X", 0)]⟩, ⟨"galachain", [("X", -2)]⟩]

/-- Witness for C10: a negative-price source changes nothing, and an asset
whose sources all report 0, a negative value, or nothing is absent from the
comparison output. -/
theorem C10_witness :
    comparePricesToken defaultComparisonConfig (fun _ => true)
        (c10GoodData ++ c10BadSource :: []) "X"
      = comparePricesToken defaultComparisonConfig (fun _ => true)
          (c10GoodData ++ []) "X" ∧
    (contributingPrices c10AllBad "X" = [] ∧
     comparePricesToken defaultComparisonConfig (fun _ => true) c10AllBad "X" = none ∧
     lookupKey (comparePrices defaultComparisonConfig (fun _ => true) ["X", "Y"] c10AllBad)
       "X" = none) :=
  ⟨(C10_theorem defaultComparisonConfig (fun _ => true) ["X", "Y"] c10GoodData []
      c10AllBad c10BadSource "X").1
      (by norm_num [nonContributing, lookupKey, c10BadSource]),
   (C10_theorem defaultComparisonConfig (fun _ => true) ["X", "Y"] c10GoodData []
      c10AllBad c10BadSource "X").2
      (by
        intro r hr
        simp only [c10AllBad, List.mem_cons, List.mem_singleton] at hr
        rcases hr with hr | hr | hr
        · subst hr; norm_num [nonContributing, lookupKey]
        · subst hr; norm_num [nonContributing, lookupKey]
        · cases hr)⟩
